import Mathlib

/-!
Verification of the Gaussian-blur tool in `src/main.cpp`.

The numeric kernel builder (`gaussian`, `produce2dGaussianKernel`) is embedded
over exact rational arithmetic; the transcendental `std::exp` is modelled by an
explicit function parameter `E : ℚ → ℚ`, so each theorem is proved for every
function enjoying the properties of `exp` that the statement actually needs
(positivity, monotonicity — on the nonpositive rationals, where `E` is
evaluated).  The image codec and the channel adapters are embedded over
`List Char`.  The OpenCL pipeline in `main` is embedded as a trace function
producing the ordered list of observable events (API calls, diagnostics,
releases, process exit), parameterized by an oracle giving the status code each
device call returns.
-/

namespace OpenCLTutorial

/-- Embedding of `gaussian` (src/main.cpp lines 19-23).  The C++ computes
`std::exp(-0.5 * a * a)` with `a = (x - mu) / sigma` in `double` arithmetic;
arithmetic is modelled exactly over `ℚ` and `std::exp` by the parameter `E`. -/
def gaussian (E : ℚ → ℚ) (x mu sigma : ℚ) : ℚ :=
  let a : ℚ := (x - mu) / sigma
  E (-(1/2) * a * a)

/-- Embedding of `produce2dGaussianKernel` (src/main.cpp lines 25-54):
radius `0` short-circuits to the 1×1 matrix `[[1]]`; otherwise
`sigma = kernelRadius / 2`, a `(2r+1)×(2r+1)` matrix of separable products is
filled while the running `sum` accumulates every cell, and finally every cell
is divided by `sum`. -/
def produce2dGaussianKernel (E : ℚ → ℚ) (kernelRadius : ℕ) : List (List ℚ) :=
  if kernelRadius = 0 then
    [[1]]
  else
    let sigma : ℚ := (kernelRadius : ℚ) / 2
    let kernel2d : List (List ℚ) :=
      (List.range (2 * kernelRadius + 1)).map (fun (row : ℕ) =>
        (List.range (2 * kernelRadius + 1)).map (fun (col : ℕ) =>
          gaussian E (row : ℚ) (kernelRadius : ℚ) sigma *
            gaussian E (col : ℚ) (kernelRadius : ℚ) sigma))
    let sum : ℚ := (kernel2d.map List.sum).sum
    kernel2d.map (fun r => r.map (fun x => x / sum))

/-- The unnormalized cell value `gaussian(row, r, r/2) * gaussian(col, r, r/2)`
computed at src/main.cpp line 40. -/
def gaussianCell (E : ℚ → ℚ) (r row col : ℕ) : ℚ :=
  gaussian E (row : ℚ) (r : ℚ) ((r : ℚ) / 2) *
    gaussian E (col : ℚ) (r : ℚ) ((r : ℚ) / 2)

/-- The accumulated `sum` of all unnormalized cells (src/main.cpp line 42). -/
def gaussianTotal (E : ℚ → ℚ) (r : ℕ) : ℚ :=
  ((List.range (2 * r + 1)).map (fun row =>
    ((List.range (2 * r + 1)).map (gaussianCell E r row)).sum)).sum

/-- Entry `(row, col)` of the produced kernel, with out-of-range defaults. -/
def kernelEntry (E : ℚ → ℚ) (r row col : ℕ) : ℚ :=
  ((produce2dGaussianKernel E r).getD row []).getD col 0

theorem sum_map_div (l : List ℚ) (c : ℚ) :
    (l.map (fun x => x / c)).sum = l.sum / c := by
  induction l with
  | nil => simp
  | cons a t ih => simp [ih, add_div]

theorem gaussian_arg_nonpos (x mu sigma : ℚ) :
    -(1/2) * ((x - mu) / sigma) * ((x - mu) / sigma) ≤ 0 := by
  nlinarith [mul_self_nonneg ((x - mu) / sigma)]

theorem gaussian_pos (E : ℚ → ℚ) (hE : ∀ x : ℚ, x ≤ 0 → 0 < E x)
    (x mu sigma : ℚ) : 0 < gaussian E x mu sigma := by
  unfold gaussian
  exact hE _ (gaussian_arg_nonpos x mu sigma)

theorem produce_eq_normalized (E : ℚ → ℚ) (r : ℕ) (hr0 : r ≠ 0) :
    produce2dGaussianKernel E r =
      (List.range (2 * r + 1)).map (fun row =>
        (List.range (2 * r + 1)).map (fun col =>
          gaussianCell E r row col / gaussianTotal E r)) := by
  unfold produce2dGaussianKernel gaussianTotal gaussianCell
  rw [if_neg hr0]
  rw [List.map_map]
  apply List.map_congr_left
  intro row _
  simp only [Function.comp_apply]
  simp only [List.map_map]
  rfl

theorem gaussianTotal_pos (E : ℚ → ℚ) (hE : ∀ x : ℚ, x ≤ 0 → 0 < E x)
    (r : ℕ) : 0 < gaussianTotal E r := by
  unfold gaussianTotal
  apply List.sum_pos
  · intro x hx
    simp only [List.mem_map] at hx
    obtain ⟨row, _, rfl⟩ := hx
    apply List.sum_pos
    · intro y hy
      simp only [List.mem_map] at hy
      obtain ⟨col, _, rfl⟩ := hy
      exact mul_pos (gaussian_pos E hE _ _ _) (gaussian_pos E hE _ _ _)
    · simp [List.range_eq_nil]
  · simp [List.range_eq_nil]

theorem getD_map_range {α : Type} (n i : ℕ) (f : ℕ → α) (d : α) (h : i < n) :
    ((List.range n).map f).getD i d = f i := by
  rw [List.getD_eq_getElem _ _ (by simpa using h), List.getElem_map,
    List.getElem_range]

theorem kernelEntry_eq (E : ℚ → ℚ) (r row col : ℕ)
    (hr : 1 ≤ r) (hrow : row < 2 * r + 1) (hcol : col < 2 * r + 1) :
    kernelEntry E r row col = gaussianCell E r row col / gaussianTotal E r := by
  unfold kernelEntry
  rw [produce_eq_normalized E r (by omega), getD_map_range _ _ _ _ hrow,
    getD_map_range _ _ _ _ hcol]

/-- Claim C1: for every radius `r ≥ 1` the kernel matrix returned by
`produce2dGaussianKernel` has dimensions `(2r+1)×(2r+1)`, every entry is
non-negative, and the entries sum to `1` — in the exact-arithmetic model the
sum is exactly `1`, hence within any tolerance such as `1e-5`. -/
theorem kernel_dims_nonneg_sum_one (E : ℚ → ℚ) (hE : ∀ x : ℚ, x ≤ 0 → 0 < E x)
    (r : ℕ) (hr : 1 ≤ r) :
    (produce2dGaussianKernel E r).length = 2 * r + 1 ∧
    (∀ row ∈ produce2dGaussianKernel E r, row.length = 2 * r + 1) ∧
    (∀ row ∈ produce2dGaussianKernel E r, ∀ x ∈ row, 0 ≤ x) ∧
    ((produce2dGaussianKernel E r).map List.sum).sum = 1 := by
  have hS : 0 < gaussianTotal E r := gaussianTotal_pos E hE r
  rw [produce_eq_normalized E r (by omega)]
  refine ⟨by simp, ?_, ?_, ?_⟩
  · intro row hrow
    simp only [List.mem_map] at hrow
    obtain ⟨i, _, rfl⟩ := hrow
    simp
  · intro row hrow x hx
    simp only [List.mem_map] at hrow
    obtain ⟨i, _, rfl⟩ := hrow
    simp only [List.mem_map] at hx
    obtain ⟨j, _, rfl⟩ := hx
    have hc : 0 < gaussianCell E r i j :=
      mul_pos (gaussian_pos E hE _ _ _) (gaussian_pos E hE _ _ _)
    exact le_of_lt (div_pos hc hS)
  · have hinner : ∀ i : ℕ,
        ((List.range (2 * r + 1)).map (fun col =>
          gaussianCell E r i col / gaussianTotal E r)).sum =
        ((List.range (2 * r + 1)).map (gaussianCell E r i)).sum /
          gaussianTotal E r := by
      intro i
      rw [← sum_map_div, List.map_map]
      rfl
    rw [List.map_map]
    have : ((List.range (2 * r + 1)).map (List.sum ∘ fun row =>
        (List.range (2 * r + 1)).map (fun col =>
          gaussianCell E r row col / gaussianTotal E r))) =
        ((List.range (2 * r + 1)).map (fun row =>
          ((List.range (2 * r + 1)).map (gaussianCell E r row)).sum)).map
            (fun x => x / gaussianTotal E r) := by
      rw [List.map_map]
      apply List.map_congr_left
      intro i _
      exact hinner i
    rw [this, sum_map_div]
    exact div_self (ne_of_gt hS)

/-- Claim C2: for radius `r ≥ 1` the kernel is built with `sigma = r/2`, and
cell `(row, col)` equals the separable product
`gaussian(row, r, sigma) * gaussian(col, r, sigma)` divided by the sum of all
such products. -/
theorem kernel_entry_formula (E : ℚ → ℚ) (r row col : ℕ)
    (hr : 1 ≤ r) (hrow : row < 2 * r + 1) (hcol : col < 2 * r + 1) :
    kernelEntry E r row col =
      (gaussian E (row : ℚ) (r : ℚ) ((r : ℚ) / 2) *
        gaussian E (col : ℚ) (r : ℚ) ((r : ℚ) / 2)) / gaussianTotal E r :=
  kernelEntry_eq E r row col hr hrow hcol

/-- Claim C3: for radius `0`, `produce2dGaussianKernel` short-circuits (before
computing `sigma` or dividing) and returns exactly the 1×1 matrix `[[1]]`. -/
theorem kernel_radius_zero (E : ℚ → ℚ) :
    produce2dGaussianKernel E 0 = [[1]] := rfl

theorem div_le_div_of_le_of_nonneg_den {a b c : ℚ} (h : a ≤ b) (hc : 0 ≤ c) :
    a / c ≤ b / c := by
  rcases eq_or_lt_of_le hc with hc0 | hc0
  · simp [← hc0]
  · exact (div_le_div_iff_of_pos_right hc0).mpr h

theorem gaussian_anti (E : ℚ → ℚ)
    (hmono : ∀ a b : ℚ, a ≤ b → b ≤ 0 → E a ≤ E b)
    (mu sigma x₁ x₂ : ℚ) (h : |x₁ - mu| ≤ |x₂ - mu|) :
    gaussian E x₂ mu sigma ≤ gaussian E x₁ mu sigma := by
  unfold gaussian
  apply hmono
  · have hsq : (x₁ - mu) * (x₁ - mu) ≤ (x₂ - mu) * (x₂ - mu) := by
      have := mul_self_le_mul_self (abs_nonneg (x₁ - mu)) h
      simpa [abs_mul_abs_self] using this
    have hdiv : (x₁ - mu) / sigma * ((x₁ - mu) / sigma) ≤
        (x₂ - mu) / sigma * ((x₂ - mu) / sigma) := by
      have h2 : (x₁ - mu) * (x₁ - mu) / (sigma * sigma) ≤
          (x₂ - mu) * (x₂ - mu) / (sigma * sigma) :=
        div_le_div_of_le_of_nonneg_den hsq (mul_self_nonneg sigma)
      calc (x₁ - mu) / sigma * ((x₁ - mu) / sigma)
          = (x₁ - mu) * (x₁ - mu) / (sigma * sigma) := by ring
        _ ≤ (x₂ - mu) * (x₂ - mu) / (sigma * sigma) := h2
        _ = (x₂ - mu) / sigma * ((x₂ - mu) / sigma) := by ring
    nlinarith [hdiv]
  · exact gaussian_arg_nonpos x₁ mu sigma

/-- Claim C8: for `r ≥ 1` the center entry `kernel[r][r]` dominates every
other entry, and the entries are non-increasing as `|row - r|` (resp.
`|col - r|`) grows, with the other index fixed. -/
theorem kernel_center_monotone (E : ℚ → ℚ)
    (hpos : ∀ x : ℚ, x ≤ 0 → 0 < E x)
    (hmono : ∀ a b : ℚ, a ≤ b → b ≤ 0 → E a ≤ E b)
    (r : ℕ) (hr : 1 ≤ r) :
    (∀ row col, row < 2 * r + 1 → col < 2 * r + 1 →
      kernelEntry E r row col ≤ kernelEntry E r r r) ∧
    (∀ row₁ row₂ col, row₁ < 2 * r + 1 → row₂ < 2 * r + 1 → col < 2 * r + 1 →
      |(row₁ : ℚ) - (r : ℚ)| ≤ |(row₂ : ℚ) - (r : ℚ)| →
      kernelEntry E r row₂ col ≤ kernelEntry E r row₁ col) ∧
    (∀ row col₁ col₂, row < 2 * r + 1 → col₁ < 2 * r + 1 → col₂ < 2 * r + 1 →
      |(col₁ : ℚ) - (r : ℚ)| ≤ |(col₂ : ℚ) - (r : ℚ)| →
      kernelEntry E r row col₂ ≤ kernelEntry E r row col₁) := by
  have hS : 0 < gaussianTotal E r := gaussianTotal_pos E hpos r
  have hg : ∀ x mu sigma : ℚ, 0 < gaussian E x mu sigma := gaussian_pos E hpos
  have hrr : (r : ℕ) < 2 * r + 1 := by omega
  refine ⟨?_, ?_, ?_⟩
  · intro row col hrow hcol
    rw [kernelEntry_eq E r row col hr hrow hcol,
      kernelEntry_eq E r r r hr hrr hrr]
    apply div_le_div_of_le_of_nonneg_den _ (le_of_lt hS)
    unfold gaussianCell
    have h1 : gaussian E (row : ℚ) (r : ℚ) ((r : ℚ) / 2) ≤
        gaussian E (r : ℚ) (r : ℚ) ((r : ℚ) / 2) := by
      apply gaussian_anti E hmono
      simp [abs_nonneg]
    have h2 : gaussian E (col : ℚ) (r : ℚ) ((r : ℚ) / 2) ≤
        gaussian E (r : ℚ) (r : ℚ) ((r : ℚ) / 2) := by
      apply gaussian_anti E hmono
      simp [abs_nonneg]
    exact mul_le_mul h1 h2 (le_of_lt (hg _ _ _)) (le_of_lt (hg _ _ _))
  · intro row₁ row₂ col h1 h2 h3 habs
    rw [kernelEntry_eq E r row₂ col hr h2 h3,
      kernelEntry_eq E r row₁ col hr h1 h3]
    apply div_le_div_of_le_of_nonneg_den _ (le_of_lt hS)
    unfold gaussianCell
    exact mul_le_mul_of_nonneg_right (gaussian_anti E hmono _ _ _ _ habs)
      (le_of_lt (hg _ _ _))
  · intro row col₁ col₂ h1 h2 h3 habs
    rw [kernelEntry_eq E r row col₂ hr h1 h3,
      kernelEntry_eq E r row col₁ hr h1 h2]
    apply div_le_div_of_le_of_nonneg_den _ (le_of_lt hS)
    unfold gaussianCell
    exact mul_le_mul_of_nonneg_left (gaussian_anti E hmono _ _ _ _ habs)
      (le_of_lt (hg _ _ _))

/-- A concrete stand-in for `std::exp` on the nonpositive rationals: positive
and monotone there, so it satisfies every hypothesis the kernel theorems
place on the exponential. -/
def Edemo (q : ℚ) : ℚ := 1 / (1 - q)

theorem Edemo_pos : ∀ x : ℚ, x ≤ 0 → 0 < Edemo x := by
  intro x hx
  unfold Edemo
  have : (0 : ℚ) < 1 - x := by linarith
  positivity

theorem Edemo_mono : ∀ a b : ℚ, a ≤ b → b ≤ 0 → Edemo a ≤ Edemo b := by
  intro a b hab hb
  unfold Edemo
  have hbpos : (0 : ℚ) < 1 - b := by linarith
  have hle : 1 - b ≤ 1 - a := by linarith
  exact one_div_le_one_div_of_le hbpos hle

/-- Claim C3 witness at a concrete exponential. -/
theorem kernel_radius_zero_w :
    produce2dGaussianKernel Edemo 0 = [[1]] := kernel_radius_zero Edemo

theorem kernel_dims_nonneg_sum_one_w :
    (produce2dGaussianKernel Edemo 1).length = 2 * 1 + 1 ∧
    ((produce2dGaussianKernel Edemo 1).map List.sum).sum = 1 :=
  ⟨(kernel_dims_nonneg_sum_one Edemo Edemo_pos 1 (by decide)).1,
   (kernel_dims_nonneg_sum_one Edemo Edemo_pos 1 (by decide)).2.2.2⟩

theorem kernel_entry_formula_w :
    kernelEntry Edemo 1 0 2 =
      (gaussian Edemo (0 : ℚ) (1 : ℚ) ((1 : ℚ) / 2) *
        gaussian Edemo (2 : ℚ) (1 : ℚ) ((1 : ℚ) / 2)) / gaussianTotal Edemo 1 := by
  have h := kernel_entry_formula Edemo 1 0 2 (by decide) (by decide) (by decide)
  simpa using h

theorem kernel_center_monotone_w :
    kernelEntry Edemo 1 0 2 ≤ kernelEntry Edemo 1 1 1 :=
  (kernel_center_monotone Edemo Edemo_pos Edemo_mono 1 (by decide)).1 0 2
    (by decide) (by decide)

/-- Embedding of the `Image` struct (src/main.cpp lines 56-60): a flat byte
sequence plus dimensions. -/
structure Image where
  pixel : List Char
  width : Int
  height : Int
  deriving DecidableEq

/-- Pixel-level embedding of the loop in `RGBtoRGBA` (src/main.cpp lines
124-129): every group of three bytes is copied and followed by a zero alpha
byte.  When the length is not a multiple of 3 the C++ loop reads past the end
of the vector (undefined behaviour); those reads are modelled as zero bytes. -/
def rgbToRgbaPixels : List Char → List Char
  | r :: g :: b :: rest => r :: g :: b :: Char.ofNat 0 :: rgbToRgbaPixels rest
  | [r, g] => [r, g, Char.ofNat 0, Char.ofNat 0]
  | [r] => [r, Char.ofNat 0, Char.ofNat 0, Char.ofNat 0]
  | [] => []

/-- Embedding of `RGBtoRGBA` (src/main.cpp lines 118-132). -/
def RGBtoRGBA (input : Image) : Image :=
  { pixel := rgbToRgbaPixels input.pixel
    width := input.width
    height := input.height }

/-- Pixel-level embedding of the loop in `RGBAtoRGB` (src/main.cpp lines
140-144): every group of four bytes loses its fourth (alpha) byte.  A
trailing partial group again reads out of bounds in the C++; modelled as zero
bytes. -/
def rgbaToRgbPixels : List Char → List Char
  | r :: g :: b :: _ :: rest => r :: g :: b :: rgbaToRgbPixels rest
  | [r, g, b] => [r, g, b]
  | [r, g] => [r, g, Char.ofNat 0]
  | [r] => [r, Char.ofNat 0, Char.ofNat 0]
  | [] => []

/-- Embedding of `RGBAtoRGB` (src/main.cpp lines 134-147). -/
def RGBAtoRGB (input : Image) : Image :=
  { pixel := rgbaToRgbPixels input.pixel
    width := input.width
    height := input.height }

theorem rgba_rgb_pixels_roundtrip (l : List Char) (h : 3 ∣ l.length) :
    rgbaToRgbPixels (rgbToRgbaPixels l) = l := by
  induction l using rgbToRgbaPixels.induct with
  | case1 r g b rest ih =>
    have hr : 3 ∣ rest.length := by
      simp only [List.length_cons] at h
      omega
    simp only [rgbToRgbaPixels, rgbaToRgbPixels]
    rw [ih hr]
  | case2 r g => simp only [List.length_cons, List.length_nil] at h; omega
  | case3 r => simp only [List.length_cons, List.length_nil] at h; omega
  | case4 => rfl

/-- Claim C7: for every pixel buffer whose length is a multiple of 3,
converting to RGBA and back reproduces the original image exactly (same
width, height and byte sequence). -/
theorem rgba_roundtrip (img : Image) (h : 3 ∣ img.pixel.length) :
    RGBAtoRGB (RGBtoRGBA img) = img := by
  cases img with
  | mk p w ht =>
    simp only [RGBtoRGBA, RGBAtoRGB]
    simp [rgba_rgb_pixels_roundtrip p h]

theorem rgba_roundtrip_w :
    RGBAtoRGB (RGBtoRGBA ⟨['a', 'b', 'c'], 1, 1⟩) = ⟨['a', 'b', 'c'], 1, 1⟩ :=
  rgba_roundtrip ⟨['a', 'b', 'c'], 1, 1⟩ (by decide)

theorem rgbToRgba_length (l : List Char) (h : 3 ∣ l.length) :
    3 * (rgbToRgbaPixels l).length = 4 * l.length := by
  induction l using rgbToRgbaPixels.induct with
  | case1 r g b rest ih =>
    have hr : 3 ∣ rest.length := by
      simp only [List.length_cons] at h
      omega
    simp only [rgbToRgbaPixels, List.length_cons]
    have := ih hr
    omega
  | case2 r g => simp only [List.length_cons, List.length_nil] at h; omega
  | case3 r => simp only [List.length_cons, List.length_nil] at h; omega
  | case4 => rfl

theorem getD_cons_add3 {α : Type} (a b c : α) (l : List α) (n : ℕ) (d : α) :
    (a :: b :: c :: l).getD (n + 3) d = l.getD n d := by
  rw [show n + 3 = n + 2 + 1 from rfl, List.getD_cons_succ,
    show n + 2 = n + 1 + 1 from rfl, List.getD_cons_succ, List.getD_cons_succ]

theorem getD_cons_add4 {α : Type} (a b c e : α) (l : List α) (n : ℕ) (d : α) :
    (a :: b :: c :: e :: l).getD (n + 4) d = l.getD n d := by
  rw [show n + 4 = n + 3 + 1 from rfl, List.getD_cons_succ, getD_cons_add3]

theorem rgbToRgba_index (l : List Char) (d : Char) :
    ∀ k : ℕ, 3 ∣ l.length → 3 * k + 2 < l.length →
      (rgbToRgbaPixels l).getD (4 * k) d = l.getD (3 * k) d ∧
      (rgbToRgbaPixels l).getD (4 * k + 1) d = l.getD (3 * k + 1) d ∧
      (rgbToRgbaPixels l).getD (4 * k + 2) d = l.getD (3 * k + 2) d ∧
      (rgbToRgbaPixels l).getD (4 * k + 3) d = Char.ofNat 0 := by
  induction l using rgbToRgbaPixels.induct with
  | case1 r g b rest ih =>
    intro k hdvd hlt
    match k with
    | 0 => simp [rgbToRgbaPixels]
    | k + 1 =>
      have hdvd' : 3 ∣ rest.length := by
        simp only [List.length_cons] at hdvd
        omega
      have hlt' : 3 * k + 2 < rest.length := by
        simp only [List.length_cons] at hlt
        omega
      obtain ⟨e1, e2, e3, e4⟩ := ih k hdvd' hlt'
      simp only [rgbToRgbaPixels]
      refine ⟨?_, ?_, ?_, ?_⟩
      · rw [show 4 * (k + 1) = 4 * k + 4 by ring, getD_cons_add4,
          show 3 * (k + 1) = 3 * k + 3 by ring, getD_cons_add3, e1]
      · rw [show 4 * (k + 1) + 1 = 4 * k + 1 + 4 by ring, getD_cons_add4,
          show 3 * (k + 1) + 1 = 3 * k + 1 + 3 by ring, getD_cons_add3, e2]
      · rw [show 4 * (k + 1) + 2 = 4 * k + 2 + 4 by ring, getD_cons_add4,
          show 3 * (k + 1) + 2 = 3 * k + 2 + 3 by ring, getD_cons_add3, e3]
      · rw [show 4 * (k + 1) + 3 = 4 * k + 3 + 4 by ring, getD_cons_add4, e4]
  | case2 r g =>
    intro k hdvd _
    simp only [List.length_cons, List.length_nil] at hdvd
    omega
  | case3 r =>
    intro k hdvd _
    simp only [List.length_cons, List.length_nil] at hdvd
    omega
  | case4 => intro k _ hlt; simp at hlt

/-- Claim C9: `RGBtoRGBA` keeps the dimensions, produces a buffer 4/3 as
long, copies the three colour bytes of pixel `k` to positions `4k..4k+2`
unchanged, and sets every inserted alpha byte (position `4k+3`) to zero. -/
theorem rgbToRgba_spec (img : Image) (h : 3 ∣ img.pixel.length) :
    (RGBtoRGBA img).width = img.width ∧
    (RGBtoRGBA img).height = img.height ∧
    3 * (RGBtoRGBA img).pixel.length = 4 * img.pixel.length ∧
    (∀ k : ℕ, 3 * k + 2 < img.pixel.length →
      (RGBtoRGBA img).pixel.getD (4 * k) (Char.ofNat 0) =
        img.pixel.getD (3 * k) (Char.ofNat 0) ∧
      (RGBtoRGBA img).pixel.getD (4 * k + 1) (Char.ofNat 0) =
        img.pixel.getD (3 * k + 1) (Char.ofNat 0) ∧
      (RGBtoRGBA img).pixel.getD (4 * k + 2) (Char.ofNat 0) =
        img.pixel.getD (3 * k + 2) (Char.ofNat 0) ∧
      (RGBtoRGBA img).pixel.getD (4 * k + 3) (Char.ofNat 0) = Char.ofNat 0) := by
  refine ⟨rfl, rfl, rgbToRgba_length img.pixel h, ?_⟩
  intro k hk
  exact rgbToRgba_index img.pixel (Char.ofNat 0) k h hk

theorem rgbToRgba_spec_w :
    3 * (RGBtoRGBA ⟨['x', 'y', 'z'], 1, 1⟩).pixel.length =
      4 * (⟨['x', 'y', 'z'], 1, 1⟩ : Image).pixel.length ∧
    (RGBtoRGBA ⟨['x', 'y', 'z'], 1, 1⟩).pixel.getD 3 (Char.ofNat 0) =
      Char.ofNat 0 :=
  ⟨(rgbToRgba_spec ⟨['x', 'y', 'z'], 1, 1⟩ (by decide)).2.2.1,
   ((rgbToRgba_spec ⟨['x', 'y', 'z'], 1, 1⟩ (by decide)).2.2.2 0 (by decide)).2.2.2⟩

/-- C/C++ whitespace (`isspace` in the default locale): space, tab, newline,
vertical tab, form feed, carriage return. -/
def wsp (c : Char) : Bool :=
  c = ' ' || c = '\t' || c = '\n' || c = Char.ofNat 11 || c = Char.ofNat 12 ||
    c = '\r'

/-- Models `istream >> std::string`: skip whitespace, then take the maximal
run of non-whitespace characters. -/
def readToken (cs : List Char) : List Char × List Char :=
  let rest := cs.dropWhile wsp
  (rest.takeWhile (fun c => !(wsp c)), rest.dropWhile (fun c => !(wsp c)))

/-- Models `std::getline`: the characters before the first newline, and the
stream contents after that newline. -/
def getLine (cs : List Char) : List Char × List Char :=
  (cs.takeWhile (fun c => !(c = '\n' : Bool)),
   (cs.dropWhile (fun c => !(c = '\n' : Bool))).drop 1)

theorem getLine_snd_lt (cs : List Char) (h : cs ≠ []) :
    (getLine cs).2.length < cs.length := by
  unfold getLine
  simp only
  have h1 : (cs.dropWhile (fun c => !(c = '\n' : Bool))).length ≤ cs.length :=
    (List.dropWhile_suffix _).length_le
  cases hd : cs.dropWhile (fun c => !(c = '\n' : Bool)) with
  | nil =>
    simpa using List.length_pos.mpr h
  | cons a t =>
    rw [hd] at h1
    simp only [List.length_cons] at h1
    show t.length < cs.length
    omega

/-- One `getline` iteration of the comment-skipping loop of `LoadImage`
(src/main.cpp lines 74-84), driven by explicit fuel so that it reduces in the
kernel: empty lines are skipped, lines starting with `#` are comments, the
first other line carries the dimensions.  If the stream runs dry the C++
loop never terminates (a failed `getline` leaves `s` empty): `none`. -/
def skipLinesAux : ℕ → List Char → Option (List Char × List Char)
  | _, [] => none
  | 0, _ :: _ => none
  | fuel + 1, cs =>
    let p := getLine cs
    if p.1 = [] then skipLinesAux fuel p.2
    else if p.1.headD ' ' = '#' then skipLinesAux fuel p.2
    else some p

/-- The comment-skipping loop of `LoadImage`.  By `getLine_snd_lt` each
iteration consumes at least one character, so `cs.length + 1` units of fuel
can never be exhausted before the stream is. -/
def skipToDims (cs : List Char) : Option (List Char × List Char) :=
  skipLinesAux (cs.length + 1) cs

/-- Value of a digit string, most significant first. -/
def digitsVal (ds : List Char) : ℕ :=
  ds.foldl (fun acc c => 10 * acc + (c.toNat - 48)) 0

/-- Models `istream >> int` (C++11): skip whitespace, read an optional sign
and a maximal run of digits.  With no digit the extraction fails and the
variable is set to `0` — represented by `none` (callers substitute 0). -/
def readInt (cs : List Char) : Option Int × List Char :=
  let rest := cs.dropWhile wsp
  match rest with
  | '-' :: r2 =>
    if (r2.takeWhile Char.isDigit) = [] then (none, r2)
    else (some (-(digitsVal (r2.takeWhile Char.isDigit) : Int)),
      r2.dropWhile Char.isDigit)
  | '+' :: r2 =>
    if (r2.takeWhile Char.isDigit) = [] then (none, r2)
    else (some ((digitsVal (r2.takeWhile Char.isDigit) : Int) : Int),
      r2.dropWhile Char.isDigit)
  | r2 =>
    if (r2.takeWhile Char.isDigit) = [] then (none, r2)
    else (some ((digitsVal (r2.takeWhile Char.isDigit) : Int) : Int),
      r2.dropWhile Char.isDigit)

/-- Models `str >> width >> height` on the dimensions line (src/main.cpp
line 88): a failed first extraction leaves the stream failed, so the second
also yields 0. -/
def parseDims (line : List Char) : Int × Int :=
  match readInt line with
  | (none, _) => (0, 0)
  | (some w, rest) =>
    match readInt rest with
    | (none, _) => (w, 0)
    | (some h2, _) => (w, h2)

/-- Result of `LoadImage`: `fatal` is the `exit(1)` path, `hang` the
non-terminating comment loop on a truncated stream, `ok` a parsed image. -/
inductive LoadOutcome where
  | fatal : LoadOutcome
  | hang : LoadOutcome
  | ok : Image → LoadOutcome
  deriving DecidableEq

/-- Embedding of `LoadImage` (src/main.cpp lines 62-106): reads the magic
token (exit 1 unless it is `"P6"`), skips comment lines, parses width and
height from the first real line, reads the max-color token (exit 1 unless it
equals 255), skips the rest of that line, then reads `width*height*3` raw
bytes (missing bytes stay zero, as in the zero-initialized vector). -/
def loadImage (content : List Char) : LoadOutcome :=
  let t := readToken content
  if String.mk t.1 ≠ "P6" then .fatal
  else
    match skipToDims t.2 with
    | none => .hang
    | some (line, r2) =>
      let dims := parseDims line
      let m := readInt r2
      let maxColor : Int := m.1.getD 0
      if maxColor ≠ 255 then .fatal
      else
        let r4 := (getLine m.2).2
        let n : ℕ := (dims.1 * dims.2 * 3).toNat
        let data := r4.take n ++ List.replicate (n - r4.length) (Char.ofNat 0)
        .ok ⟨data, dims.1, dims.2⟩

/-- The first whitespace-delimited token of the input file, compared against
`"P6"` at src/main.cpp line 69. -/
def magicToken (content : List Char) : String :=
  String.mk (readToken content).1

/-- The max-color value `LoadImage` would extract at src/main.cpp line 89
(`none` when the comment-skipping loop never reaches it). -/
def maxColorOf (content : List Char) : Option Int :=
  match skipToDims (readToken content).2 with
  | none => none
  | some p => some ((readInt p.2).1.getD 0)

theorem loadImage_fatal (content : List Char)
    (h : magicToken content ≠ "P6" ∨
      ∃ v, maxColorOf content = some v ∧ v ≠ 255) :
    loadImage content = .fatal := by
  unfold loadImage
  unfold magicToken at h
  by_cases hm : String.mk (readToken content).1 = "P6"
  · rw [if_neg (by simp [hm])]
    rcases h with h | ⟨v, hv, hvne⟩
    · exact absurd hm h
    · unfold maxColorOf at hv
      cases hsk : skipToDims (readToken content).2 with
      | none => rw [hsk] at hv; simp at hv
      | some p =>
        rw [hsk] at hv
        simp only [Option.some.injEq] at hv
        obtain ⟨line, r2⟩ := p
        simp only
        rw [if_pos]
        simp only at hv
        rw [hv]
        exact hvne
  · rw [if_pos hm]

/-- Embedding of C `atoi`'s sign handling. -/
def stripSign : List Char → List Char
  | '-' :: rest => rest
  | '+' :: rest => rest
  | rest => rest

def signOf : List Char → Int
  | '-' :: _ => -1
  | _ => 1

/-- Embedding of C `atoi` (used at src/main.cpp line 213): skip whitespace,
read an optional sign and the maximal digit prefix; with no digit the result
is 0. -/
def atoi (s : String) : Int :=
  let cs := s.toList.dropWhile wsp
  signOf cs * (digitsVal ((stripSign cs).takeWhile Char.isDigit) : Int)

/-- `true` when the argument has no digit after the optional sign, i.e. when
`atoi` finds nothing numeric to convert. -/
def nonNumericStr (s : String) : Bool :=
  ((stripSign (s.toList.dropWhile wsp)).takeWhile Char.isDigit).isEmpty

theorem atoi_eq_zero_of_nonNumeric (s : String) (h : nonNumericStr s = true) :
    atoi s = 0 := by
  unfold nonNumericStr at h
  rw [List.isEmpty_iff] at h
  unfold atoi
  simp only
  rw [h]
  simp [digitsVal]

/-- The implicit `int` → `unsigned int` conversion (value modulo `2^32`)
performed when `main` passes `filterSize` to `produce2dGaussianKernel`. -/
def uintOfInt (i : Int) : ℕ := (i % 4294967296).toNat

/-- The OpenCL API calls `main` issues whose status codes matter to the
analysis (src/main.cpp lines 206-356). -/
inductive APICall where
  | getPlatformIDs | getDeviceIDs | createContext | createProgramWithSource
  | buildProgram | createKernel | createInputImage | createOutputImage
  | createBuffer | setKernelArg | createCommandQueue | enqueueNDRangeKernel
  | enqueueReadImage
  deriving DecidableEq

/-- Observable events of a run of `main`, in program order: stdout/stderr
lines, API calls, the `CheckError` diagnostic, resource releases, the output
file write, and process exit. -/
inductive Event where
  | printUsage
  | apiCall : APICall → Event
  | errNoPlatform
  | foundPlatforms : ℕ → Event
  | errNoDevice
  | foundDevices : ℕ → Event
  | printPlatformName : ℕ → Event
  | printDeviceName : ℕ → Event
  | contextCreated
  | buildProgramWith : Int → Event
  | clError : Int → Event
  | exitProc : ℕ → Event
  | loadInput
  | diverge
  | saveOutput
  | releaseOutputImage
  | releaseWeightsBuffer
  | releaseInputImage
  | releaseCommandQueue
  | releaseKernel
  | releaseProgram
  | releaseContext
  deriving DecidableEq

/-- Embedding of `CheckError` (src/main.cpp lines 175-181) in continuation
style: a non-success status logs the numeric code and exits the process,
aborting the rest of the run (`k`). -/
def checkError (error : Int) (k : List Event) : List Event :=
  if error ≠ 0 then [Event.clError error, Event.exitProc 1] else k

/-- The calls whose status `main` routes through `CheckError`, in program
order.  Notably absent: the two enumeration fills, the name queries, the
three `clSetKernelArg` calls, `clEnqueueReadImage`, and the releases. -/
def checkedCalls : List APICall :=
  [.createContext, .createProgramWithSource, .buildProgram, .createKernel,
   .createInputImage, .createOutputImage, .createBuffer, .createCommandQueue,
   .enqueueNDRangeKernel]

/-- Trace semantics of `main` (src/main.cpp lines 206-357), parameterized by
the status oracle `st`, the platform/device counts the enumeration calls
report, the argument count, the single argument and the bytes of `test.ppm`.
Event order follows the source line by line; each `CheckError` wrapper may cut
the run short. -/
def mainEvents (st : APICall → Int) (platformIdCount deviceIdCount : ℕ)
    (argc : ℕ) (arg1 : String) (content : List Char) : List Event :=
  if argc ≠ 2 then [Event.printUsage, Event.exitProc 1]
  else
    let filterSize : Int := atoi arg1
    Event.apiCall .getPlatformIDs ::
    (if platformIdCount = 0 then [Event.errNoPlatform, Event.exitProc 1]
     else
      Event.foundPlatforms platformIdCount ::
      Event.apiCall .getPlatformIDs ::
      (((List.range platformIdCount).map Event.printPlatformName) ++
       (Event.apiCall .getDeviceIDs ::
        (if deviceIdCount = 0 then [Event.errNoDevice, Event.exitProc 1]
         else
          Event.foundDevices deviceIdCount ::
          Event.apiCall .getDeviceIDs ::
          (((List.range deviceIdCount).map Event.printDeviceName) ++
           (Event.apiCall .createContext ::
            checkError (st .createContext)
              (Event.contextCreated ::
               Event.apiCall .createProgramWithSource ::
               checkError (st .createProgramWithSource)
                 (Event.buildProgramWith filterSize ::
                  checkError (st .buildProgram)
                    (Event.apiCall .createKernel ::
                     checkError (st .createKernel)
                       (Event.loadInput ::
                        match loadImage content with
                        | .fatal => [Event.exitProc 1]
                        | .hang => [Event.diverge]
                        | .ok _img =>
                          Event.apiCall .createInputImage ::
                          checkError (st .createInputImage)
                            (Event.apiCall .createOutputImage ::
                             checkError (st .createOutputImage)
                               (Event.apiCall .createBuffer ::
                                checkError (st .createBuffer)
                                  (Event.apiCall .setKernelArg ::
                                   Event.apiCall .setKernelArg ::
                                   Event.apiCall .setKernelArg ::
                                   Event.apiCall .createCommandQueue ::
                                   checkError (st .createCommandQueue)
                                     (Event.apiCall .enqueueNDRangeKernel ::
                                      checkError (st .enqueueNDRangeKernel)
                                        (Event.apiCall .enqueueReadImage ::
                                         Event.saveOutput ::
                                         [Event.releaseOutputImage,
                                          Event.releaseWeightsBuffer,
                                          Event.releaseInputImage,
                                          Event.releaseCommandQueue,
                                          Event.releaseKernel,
                                          Event.releaseProgram,
                                          Event.releaseContext])))))))))))))))

/-- `t` ends with the block `s`. -/
def endsWith {α : Type} (t s : List α) : Prop := ∃ pre, t = pre ++ s

theorem endsWith_self {α : Type} (s : List α) : endsWith s s := ⟨[], rfl⟩

theorem endsWith_cons {α : Type} (a : α) {t s : List α} (h : endsWith t s) :
    endsWith (a :: t) s := by
  obtain ⟨p, hp⟩ := h
  exact ⟨a :: p, by simp [hp]⟩

theorem endsWith_append {α : Type} (u : List α) {t s : List α}
    (h : endsWith t s) : endsWith (u ++ t) s := by
  obtain ⟨p, hp⟩ := h
  exact ⟨u ++ p, by simp [hp]⟩

/-- A status oracle where every call succeeds. -/
def stAllOk : APICall → Int := fun _ => 0

/-- A status oracle where only the dispatch enqueue fails. -/
def stDispatchFail : APICall → Int :=
  fun c => if c = .enqueueNDRangeKernel then -5 else 0

/-- A status oracle where only the readback fails. -/
def stReadbackFail : APICall → Int :=
  fun c => if c = .enqueueReadImage then -30 else 0

/-- A status oracle where only the program build fails. -/
def stBuildFail : APICall → Int :=
  fun c => if c = .buildProgram then -11 else 0

/-- A well-formed 1×1 `test.ppm`. -/
def goodPpm : List Char := "P6\n1 1\n255\nabc".toList

/-- A `test.ppm` with the wrong magic token. -/
def badPpm : List Char := "P5\n1 1\n255\nabc".toList

/-- Claim C4 counterexample: on a run where the dispatch enqueue fails
(status −5) the process exits through `CheckError` and none of the release
calls happens, so the releases do *not* occur on every run where the dispatch
failed. -/
theorem releases_skipped_on_dispatch_failure :
    stDispatchFail .enqueueNDRangeKernel ≠ 0 ∧
    Event.exitProc 1 ∈ mainEvents stDispatchFail 1 1 2 "1" goodPpm ∧
    Event.releaseOutputImage ∉ mainEvents stDispatchFail 1 1 2 "1" goodPpm ∧
    Event.releaseContext ∉ mainEvents stDispatchFail 1 1 2 "1" goodPpm := by
  decide

/-- Claim C4 (amended): on every run in which all `CheckError`-guarded calls
succeed — the readback status is irrelevant, since it is never checked — the
pipeline releases the output image, weights buffer, input image, command
queue, kernel and program, in that order, and the context last. -/
theorem releases_in_order (st : APICall → Int) (pc dc : ℕ) (arg : String)
    (content : List Char) (img : Image)
    (hpc : 0 < pc) (hdc : 0 < dc)
    (hok : ∀ c ∈ checkedCalls, st c = 0)
    (hload : loadImage content = .ok img) :
    endsWith (mainEvents st pc dc 2 arg content)
      [Event.releaseOutputImage, Event.releaseWeightsBuffer,
       Event.releaseInputImage, Event.releaseCommandQueue,
       Event.releaseKernel, Event.releaseProgram, Event.releaseContext] := by
  have h1 : st .createContext = 0 := hok _ (by simp [checkedCalls])
  have h2 : st .createProgramWithSource = 0 := hok _ (by simp [checkedCalls])
  have h3 : st .buildProgram = 0 := hok _ (by simp [checkedCalls])
  have h4 : st .createKernel = 0 := hok _ (by simp [checkedCalls])
  have h5 : st .createInputImage = 0 := hok _ (by simp [checkedCalls])
  have h6 : st .createOutputImage = 0 := hok _ (by simp [checkedCalls])
  have h7 : st .createBuffer = 0 := hok _ (by simp [checkedCalls])
  have h8 : st .createCommandQueue = 0 := hok _ (by simp [checkedCalls])
  have h9 : st .enqueueNDRangeKernel = 0 := hok _ (by simp [checkedCalls])
  have hpc' : ¬pc = 0 := by omega
  have hdc' : ¬dc = 0 := by omega
  simp only [mainEvents, checkError, hpc', hdc', h1, h2, h3, h4, h5, h6, h7,
    h8, h9, hload, if_false, ite_false, ne_eq, not_true_eq_false,
    not_false_eq_true, ite_true, if_true, reduceIte]
  repeat
    first
    | exact endsWith_self _
    | apply endsWith_cons
    | apply endsWith_append

/-- Claim C4 witness: the releases occur, in order, on a run whose readback
fails. -/
theorem releases_in_order_w :
    endsWith (mainEvents stReadbackFail 1 1 2 "1" goodPpm)
      [Event.releaseOutputImage, Event.releaseWeightsBuffer,
       Event.releaseInputImage, Event.releaseCommandQueue,
       Event.releaseKernel, Event.releaseProgram, Event.releaseContext] :=
  releases_in_order stReadbackFail 1 1 "1" goodPpm ⟨['a', 'b', 'c'], 1, 1⟩
    (by decide) (by decide) (by decide) (by decide)

/-- Recognizes the `CheckError` diagnostic event. -/
def isClError : Event → Bool
  | .clError _ => true
  | _ => false

/-- Claim C5 counterexample: the readback (`clEnqueueReadImage`) returns a
non-success status (−30), yet the run logs no error code, does not
terminate, and still writes the output file — its status is never routed
through `CheckError`. -/
theorem readback_status_ignored :
    stReadbackFail .enqueueReadImage ≠ 0 ∧
    (mainEvents stReadbackFail 1 1 2 "1" goodPpm).all
      (fun ev => !(isClError ev)) = true ∧
    Event.exitProc 1 ∉ mainEvents stReadbackFail 1 1 2 "1" goodPpm ∧
    Event.saveOutput ∈ mainEvents stReadbackFail 1 1 2 "1" goodPpm := by
  decide

/-- Claim C5 (amended): every device call whose status `main` hands to
`CheckError` — context creation, program creation, build, kernel creation,
input/output image creation, buffer creation, queue creation, dispatch — is
fatal on non-success: the numeric status is logged and the process exits 1
immediately.  The readback is *not* status-checked: if every checked call
succeeds, no error is logged and no exit occurs (whatever the readback
status), and the output is written. -/
theorem checked_calls_fatal_readback_unchecked (st : APICall → Int)
    (pc dc : ℕ) (arg : String) (content : List Char) (img : Image)
    (hpc : 0 < pc) (hdc : 0 < dc) (hload : loadImage content = .ok img) :
    ((∃ c ∈ checkedCalls, st c ≠ 0) →
      ∃ e, e ≠ 0 ∧ endsWith (mainEvents st pc dc 2 arg content)
        [Event.clError e, Event.exitProc 1]) ∧
    ((∀ c ∈ checkedCalls, st c = 0) →
      (∀ e : Int, Event.clError e ∉ mainEvents st pc dc 2 arg content) ∧
      Event.exitProc 1 ∉ mainEvents st pc dc 2 arg content ∧
      Event.saveOutput ∈ mainEvents st pc dc 2 arg content) := by
  have hpc' : ¬pc = 0 := by omega
  have hdc' : ¬dc = 0 := by omega
  constructor
  · intro hex
    by_cases h1 : st .createContext = 0
    · by_cases h2 : st .createProgramWithSource = 0
      · by_cases h3 : st .buildProgram = 0
        · by_cases h4 : st .createKernel = 0
          · by_cases h5 : st .createInputImage = 0
            · by_cases h6 : st .createOutputImage = 0
              · by_cases h7 : st .createBuffer = 0
                · by_cases h8 : st .createCommandQueue = 0
                  · by_cases h9 : st .enqueueNDRangeKernel = 0
                    · exfalso
                      obtain ⟨c, hc, hcne⟩ := hex
                      fin_cases hc <;> simp_all
                    · refine ⟨st .enqueueNDRangeKernel, h9, ?_⟩
                      simp only [mainEvents, checkError, hpc', hdc', h1, h2,
                        h3, h4, h5, h6, h7, h8, h9, hload, ne_eq,
                        not_true_eq_false, not_false_eq_true, if_false,
                        if_true, ite_false, ite_true, reduceIte]
                      repeat
                        first
                        | exact endsWith_self _
                        | apply endsWith_cons
                        | apply endsWith_append
                  · refine ⟨st .createCommandQueue, h8, ?_⟩
                    simp only [mainEvents, checkError, hpc', hdc', h1, h2,
                      h3, h4, h5, h6, h7, h8, hload, ne_eq,
                      not_true_eq_false, not_false_eq_true, if_false,
                      if_true, ite_false, ite_true, reduceIte]
                    repeat
                      first
                      | exact endsWith_self _
                      | apply endsWith_cons
                      | apply endsWith_append
                · refine ⟨st .createBuffer, h7, ?_⟩
                  simp only [mainEvents, checkError, hpc', hdc', h1, h2, h3,
                    h4, h5, h6, h7, hload, ne_eq, not_true_eq_false,
                    not_false_eq_true, if_false, if_true, ite_false,
                    ite_true, reduceIte]
                  repeat
                    first
                    | exact endsWith_self _
                    | apply endsWith_cons
                    | apply endsWith_append
              · refine ⟨st .createOutputImage, h6, ?_⟩
                simp only [mainEvents, checkError, hpc', hdc', h1, h2, h3,
                  h4, h5, h6, hload, ne_eq, not_true_eq_false,
                  not_false_eq_true, if_false, if_true, ite_false, ite_true,
                  reduceIte]
                repeat
                  first
                  | exact endsWith_self _
                  | apply endsWith_cons
                  | apply endsWith_append
            · refine ⟨st .createInputImage, h5, ?_⟩
              simp only [mainEvents, checkError, hpc', hdc', h1, h2, h3, h4,
                h5, hload, ne_eq, not_true_eq_false, not_false_eq_true,
                if_false, if_true, ite_false, ite_true, reduceIte]
              repeat
                first
                | exact endsWith_self _
                | apply endsWith_cons
                | apply endsWith_append
          · refine ⟨st .createKernel, h4, ?_⟩
            simp only [mainEvents, checkError, hpc', hdc', h1, h2, h3, h4,
              ne_eq, not_true_eq_false, not_false_eq_true, if_false,
              if_true, ite_false, ite_true, reduceIte]
            repeat
              first
              | exact endsWith_self _
              | apply endsWith_cons
              | apply endsWith_append
        · refine ⟨st .buildProgram, h3, ?_⟩
          simp only [mainEvents, checkError, hpc', hdc', h1, h2, h3, ne_eq,
            not_true_eq_false, not_false_eq_true, if_false, if_true,
            ite_false, ite_true, reduceIte]
          repeat
            first
            | exact endsWith_self _
            | apply endsWith_cons
            | apply endsWith_append
      · refine ⟨st .createProgramWithSource, h2, ?_⟩
        simp only [mainEvents, checkError, hpc', hdc', h1, h2, ne_eq,
          not_true_eq_false, not_false_eq_true, if_false, if_true,
          ite_false, ite_true, reduceIte]
        repeat
          first
          | exact endsWith_self _
          | apply endsWith_cons
          | apply endsWith_append
    · refine ⟨st .createContext, h1, ?_⟩
      simp only [mainEvents, checkError, hpc', hdc', h1, ne_eq,
        not_true_eq_false, not_false_eq_true, if_false, if_true, ite_false,
        ite_true, reduceIte]
      repeat
        first
        | exact endsWith_self _
        | apply endsWith_cons
        | apply endsWith_append
  · intro hall
    have h1 : st .createContext = 0 := hall _ (by simp [checkedCalls])
    have h2 : st .createProgramWithSource = 0 := hall _ (by simp [checkedCalls])
    have h3 : st .buildProgram = 0 := hall _ (by simp [checkedCalls])
    have h4 : st .createKernel = 0 := hall _ (by simp [checkedCalls])
    have h5 : st .createInputImage = 0 := hall _ (by simp [checkedCalls])
    have h6 : st .createOutputImage = 0 := hall _ (by simp [checkedCalls])
    have h7 : st .createBuffer = 0 := hall _ (by simp [checkedCalls])
    have h8 : st .createCommandQueue = 0 := hall _ (by simp [checkedCalls])
    have h9 : st .enqueueNDRangeKernel = 0 := hall _ (by simp [checkedCalls])
    refine ⟨?_, ?_, ?_⟩
    · intro e
      simp [mainEvents, checkError, hpc', hdc', h1, h2, h3, h4, h5, h6, h7,
        h8, h9, hload]
    · simp [mainEvents, checkError, hpc', hdc', h1, h2, h3, h4, h5, h6, h7,
        h8, h9, hload]
    · simp [mainEvents, checkError, hpc', hdc', h1, h2, h3, h4, h5, h6, h7,
        h8, h9, hload]

/-- Claim C5 witness: a failing program build is logged and fatal. -/
theorem checked_calls_fatal_w :
    ∃ e : Int, e ≠ 0 ∧ endsWith (mainEvents stBuildFail 1 1 2 "1" goodPpm)
      [Event.clError e, Event.exitProc 1] :=
  (checked_calls_fatal_readback_unchecked stBuildFail 1 1 "1" goodPpm
    ⟨['a', 'b', 'c'], 1, 1⟩ (by decide) (by decide) (by decide)).1
    ⟨.buildProgram, by decide, by decide⟩

/-- Claim C6: whenever the input file's magic token is not `"P6"`, or its
max-color token parses to a value other than 255, the run exits with status 1
and never writes the output file — whatever the device statuses, counts and
radius argument are. -/
theorem bad_header_exits_without_output (st : APICall → Int)
    (pc dc argc : ℕ) (arg : String) (content : List Char)
    (h : magicToken content ≠ "P6" ∨
      ∃ v, maxColorOf content = some v ∧ v ≠ 255) :
    Event.exitProc 1 ∈ mainEvents st pc dc argc arg content ∧
    Event.saveOutput ∉ mainEvents st pc dc argc arg content := by
  have hf : loadImage content = .fatal := loadImage_fatal content h
  by_cases hargc : argc = 2
  · subst hargc
    by_cases hpc : pc = 0
    · simp [mainEvents, hpc]
    · by_cases hdc : dc = 0
      · simp [mainEvents, hpc, hdc]
      · by_cases h1 : st .createContext = 0
        · by_cases h2 : st .createProgramWithSource = 0
          · by_cases h3 : st .buildProgram = 0
            · by_cases h4 : st .createKernel = 0
              · simp [mainEvents, checkError, hpc, hdc, h1, h2, h3, h4, hf]
              · simp [mainEvents, checkError, hpc, hdc, h1, h2, h3, h4]
            · simp [mainEvents, checkError, hpc, hdc, h1, h2, h3]
          · simp [mainEvents, checkError, hpc, hdc, h1, h2]
        · simp [mainEvents, checkError, hpc, hdc, h1]
  · simp [mainEvents, hargc]

/-- Claim C6 witness: the wrong magic token `"P5"` exits 1 with no output. -/
theorem bad_header_exits_without_output_w :
    Event.exitProc 1 ∈ mainEvents stAllOk 1 1 2 "1" badPpm ∧
    Event.saveOutput ∉ mainEvents stAllOk 1 1 2 "1" badPpm :=
  bad_header_exits_without_output stAllOk 1 1 2 "1" badPpm
    (Or.inl (by decide))

theorem printUsage_not_mem (st : APICall → Int) (pc dc : ℕ) (arg : String)
    (content : List Char) :
    Event.printUsage ∉ mainEvents st pc dc 2 arg content := by
  by_cases hpc : pc = 0
  · simp [mainEvents, hpc]
  · by_cases hdc : dc = 0
    · simp [mainEvents, hpc, hdc]
    · by_cases h1 : st .createContext = 0
      · by_cases h2 : st .createProgramWithSource = 0
        · by_cases h3 : st .buildProgram = 0
          · by_cases h4 : st .createKernel = 0
            · rcases hload : loadImage content with _ | _ | img
              · simp [mainEvents, checkError, hpc, hdc, h1, h2, h3, h4, hload]
              · simp [mainEvents, checkError, hpc, hdc, h1, h2, h3, h4, hload]
              · by_cases h5 : st .createInputImage = 0
                · by_cases h6 : st .createOutputImage = 0
                  · by_cases h7 : st .createBuffer = 0
                    · by_cases h8 : st .createCommandQueue = 0
                      · by_cases h9 : st .enqueueNDRangeKernel = 0
                        · simp [mainEvents, checkError, hpc, hdc, h1, h2,
                            h3, h4, h5, h6, h7, h8, h9, hload]
                        · simp [mainEvents, checkError, hpc, hdc, h1, h2,
                            h3, h4, h5, h6, h7, h8, h9, hload]
                      · simp [mainEvents, checkError, hpc, hdc, h1, h2, h3,
                          h4, h5, h6, h7, h8, hload]
                    · simp [mainEvents, checkError, hpc, hdc, h1, h2, h3,
                        h4, h5, h6, h7, hload]
                  · simp [mainEvents, checkError, hpc, hdc, h1, h2, h3, h4,
                      h5, h6, hload]
                · simp [mainEvents, checkError, hpc, hdc, h1, h2, h3, h4,
                    h5, hload]
            · simp [mainEvents, checkError, hpc, hdc, h1, h2, h3, h4]
          · simp [mainEvents, checkError, hpc, hdc, h1, h2, h3]
        · simp [mainEvents, checkError, hpc, hdc, h1, h2]
      · simp [mainEvents, checkError, hpc, hdc, h1]

/-- Claim C10: with exactly one command-line argument that is non-numeric,
the program reports no usage error: `atoi` yields 0, the run proceeds exactly
as if radius 0 had been given, and the kernel built for that radius (after
the `int` → `unsigned` conversion) is the identity 1×1 matrix. -/
theorem non_numeric_arg_radius_zero (arg : String)
    (h : nonNumericStr arg = true) (st : APICall → Int) (pc dc : ℕ)
    (content : List Char) :
    atoi arg = 0 ∧
    Event.printUsage ∉ mainEvents st pc dc 2 arg content ∧
    mainEvents st pc dc 2 arg content = mainEvents st pc dc 2 "0" content ∧
    (∀ E : ℚ → ℚ, produce2dGaussianKernel E (uintOfInt (atoi arg)) = [[1]]) := by
  have hz : atoi arg = 0 := atoi_eq_zero_of_nonNumeric arg h
  refine ⟨hz, printUsage_not_mem st pc dc arg content, ?_, ?_⟩
  · simp only [mainEvents, hz, show atoi "0" = (0 : Int) from by decide]
  · intro E
    rw [hz, show uintOfInt 0 = 0 from by decide]
    rfl

/-- Claim C10 witness: the non-numeric argument `"abc"` parses to radius 0
and yields the identity kernel. -/
theorem non_numeric_arg_radius_zero_w :
    atoi "abc" = 0 ∧
    produce2dGaussianKernel Edemo (uintOfInt (atoi "abc")) = [[1]] :=
  ⟨(non_numeric_arg_radius_zero "abc" (by decide) stAllOk 1 1 goodPpm).1,
   (non_numeric_arg_radius_zero "abc" (by decide) stAllOk 1 1 goodPpm).2.2.2
     Edemo⟩

end OpenCLTutorial
